import Mathlib

/-!
Shallow embedding of the tokenizer subsystem of `jujuchat`
(`src/jujuchat/tokenizer.py`): the fixed catalog of structural special
tokens, the `encode` façade, the conversation renderer
`render_conversation` and the completion renderer `render_for_completion`.

The external BPE encoder (rustbpe / tiktoken) is out of scope of the
claims; it enters only through two abstract parameters: a plain text
encoder `enc : String → List Nat` (the `encode_ordinary` path) and the
integer ids of the nine reserved structural tokens (gathered in
`Specials`, resolved by `encode_special` in the source).

Fatal errors (Python `assert`, `raise ValueError`, `IndexError` on an
out-of-range subscript) are modelled by `Option`: `none` means the call
raised and returned no output.
-/

namespace Jujuchat

/-- The fixed catalog `SPECIAL_TOKENS` of reserved structural token
names, in source order (`tokenizer.py` lines 10-22). -/
def SPECIAL_TOKENS : List String :=
  ["<|bos|>",
   "<|user_start|>",
   "<|user_end|>",
   "<|assistant_start|>",
   "<|assistant_end|>",
   "<|python_start|>",
   "<|python_end|>",
   "<|output_start|>",
   "<|output_end|>"]

/-- The special-token id assignment built in `train_from_iterator`:
`special_tokens = {name: tokens_offset + i for i, name in enumerate(SPECIAL_TOKENS)}`. -/
def special_tokens (tokens_offset : Nat) : List (String × Nat) :=
  SPECIAL_TOKENS.enum.map (fun p => (p.2, tokens_offset + p.1))

/-- The resolved ids of the nine structural tokens that
`render_conversation` fetches via `encode_special`. -/
structure Specials where
  bos : Nat
  user_start : Nat
  user_end : Nat
  assistant_start : Nat
  assistant_end : Nat
  python_start : Nat
  python_end : Nat
  output_start : Nat
  output_end : Nat

/-- One part of a multi-part assistant message: a dict
`{"type": ..., "text": ...}` in the source. -/
structure Part where
  type : String
  text : String
deriving DecidableEq

/-- A message's `content`: a plain string, a list of parts, or any
other Python value (which the renderer rejects). -/
inductive Content where
  | str (s : String)
  | parts (ps : List Part)
  | other
deriving DecidableEq

/-- A `{"role": ..., "content": ...}` message. Roles are strings in
the source, so any string is representable. -/
structure Message where
  role : String
  content : Content

/-- The helper `add_tokens` closed over `(ids, mask)` inside
`render_conversation`: extends `ids` with `token_ids` and `mask` with
that many copies of `mask_val`. (The single-int call sites pass a
one-element list here.) -/
def add_tokens (st : List Nat × List Nat) (token_ids : List Nat) (mask_val : Nat) :
    List Nat × List Nat :=
  (st.1 ++ token_ids, st.2 ++ List.replicate token_ids.length mask_val)

/-- The system-message preprocessing of `render_conversation`
(lines 205-218): on an empty message list the subscript
`messages[0]` raises; if the first role is `"system"` the second
message must exist and have role `"user"`, and the two contents are
merged by string concatenation with `"\n\n"` (non-string contents make
the Python `+` raise). -/
def mergeSystem (msgs : List Message) : Option (List Message) :=
  match msgs with
  | [] => none
  | m0 :: rest =>
    if m0.role = "system" then
      match rest with
      | [] => none
      | m1 :: rest2 =>
        if m1.role = "user" then
          match m0.content, m1.content with
          | Content.str s0, Content.str s1 =>
            some ({ role := m1.role, content := Content.str (s0 ++ "\n\n" ++ s1) } :: rest2)
          | _, _ => none
        else none
    else some msgs

/-- One iteration of the `for part in content` loop over an assistant
part list (lines 262-282): encode the part text, then dispatch on
`part["type"]`; an unknown type raises `ValueError`. -/
def partTokens (enc : String → List Nat) (sp : Specials) (p : Part)
    (st : List Nat × List Nat) : Option (List Nat × List Nat) :=
  let value_ids := enc p.text
  if p.type = "text" then
    some (add_tokens st value_ids 1)
  else if p.type = "python" then
    some (add_tokens (add_tokens (add_tokens st [sp.python_start] 1) value_ids 1)
      [sp.python_end] 1)
  else if p.type = "python_output" then
    some (add_tokens (add_tokens (add_tokens st [sp.output_start] 0) value_ids 0)
      [sp.output_end] 0)
  else
    none

/-- The whole `for part in content` loop, aborting at the first bad part. -/
def foldParts (enc : String → List Nat) (sp : Specials) :
    List Part → List Nat × List Nat → Option (List Nat × List Nat)
  | [], st => some st
  | p :: ps, st => (partTokens enc sp p st).bind (foldParts enc sp ps)

/-- The `for i, message in enumerate(messages)` loop of
`render_conversation` (lines 233-286): index `i` determines the
required role; user content must be a string and is emitted with mask
0 between `user_start`/`user_end`; assistant content is emitted with
mask 1 (tool output parts excepted) between `assistant_start` and
`assistant_end`. -/
def renderMessages (enc : String → List Nat) (sp : Specials) :
    Nat → List Message → List Nat × List Nat → Option (List Nat × List Nat)
  | _, [], st => some st
  | i, m :: rest, st =>
    let must_be_from := if i % 2 = 0 then "user" else "assistant"
    if m.role = must_be_from then
      if m.role = "user" then
        match m.content with
        | Content.str s =>
          renderMessages enc sp (i + 1) rest
            (add_tokens (add_tokens (add_tokens st [sp.user_start] 0) (enc s) 0)
              [sp.user_end] 0)
        | _ => none
      else
        let st1 := add_tokens st [sp.assistant_start] 0
        match m.content with
        | Content.str s =>
          renderMessages enc sp (i + 1) rest
            (add_tokens (add_tokens st1 (enc s) 1) [sp.assistant_end] 1)
        | Content.parts ps =>
          (foldParts enc sp ps st1).bind (fun st2 =>
            renderMessages enc sp (i + 1) rest (add_tokens st2 [sp.assistant_end] 1))
        | Content.other => none
    else none

/-- Embedding of `render_conversation(conversation, max_tokens)`
(lines 179-292): system-message merge, then `add_tokens(bos, 0)`, then
the message loop, then hard truncation of both lists to `max_tokens`. -/
def render_conversation (enc : String → List Nat) (sp : Specials)
    (messages : List Message) (max_tokens : Nat) : Option (List Nat × List Nat) :=
  (mergeSystem messages).bind (fun msgs =>
    (renderMessages enc sp 0 msgs (add_tokens ([], []) [sp.bos] 0)).map (fun st =>
      (st.1.take max_tokens, st.2.take max_tokens)))

/-- Embedding of `render_for_completion(conversation)`
(lines 314-336): the last
message (subscript `messages[-1]`, raising on an empty list) must have
role `"assistant"`; it is popped, the remainder is rendered with the
default `max_tokens=2048`, the mask is discarded and
`assistant_start` is appended. -/
def render_for_completion (enc : String → List Nat) (sp : Specials)
    (messages : List Message) : Option (List Nat) :=
  match messages.getLast? with
  | none => none
  | some last =>
    if last.role = "assistant" then
      (render_conversation enc sp messages.dropLast 2048).map (fun st =>
        st.1 ++ [sp.assistant_start])
    else none

/-- The `prepend` / `append` arguments of `encode`: an already-resolved
integer id, or a special-token name to resolve through `encode_special`. -/
inductive TokArg where
  | id (n : Nat)
  | name (s : String)

/-- Resolution of a `TokArg` as in `encode` lines 127-130:
`x if isinstance(x, int) else self.encode_special(x)`. -/
def resolveArg (encSpecial : String → Nat) : TokArg → Nat
  | TokArg.id n => n
  | TokArg.name s => encSpecial s

/-- The `text` argument of `encode`: a single string, a list of
strings, or any other Python value. -/
inductive EncodeInput where
  | str (s : String)
  | list (ss : List String)
  | other

/-- The return shape of `encode`: `list[int]` for a single string,
`list[list[int]]` for a list of strings. -/
inductive EncodeOutput where
  | one (ids : List Nat)
  | many (idss : List (List Nat))
deriving DecidableEq

/-- Embedding of `encode(text, prepend, append)`
(lines 115-159): a single string
goes through `encode_ordinary` and gets the resolved prepend id
inserted at position 0 and the resolved append id appended; a list of
strings goes through `encode_ordinary_batch` (each text independently)
with the same prepend/append applied to every row; any other input
raises `ValueError`. -/
def encode (encText : String → List Nat) (encSpecial : String → Nat)
    (text : EncodeInput) (prepend app : Option TokArg) : Option EncodeOutput :=
  match text with
  | EncodeInput.str s =>
    let ids := encText s
    let ids := match prepend with
      | some p => resolveArg encSpecial p :: ids
      | none => ids
    let ids := match app with
      | some a => ids ++ [resolveArg encSpecial a]
      | none => ids
    some (EncodeOutput.one ids)
  | EncodeInput.list ss =>
    let idss := ss.map encText
    let idss := match prepend with
      | some p => idss.map (fun row => resolveArg encSpecial p :: row)
      | none => idss
    let idss := match app with
      | some a => idss.map (fun row => row ++ [resolveArg encSpecial a])
      | none => idss
    some (EncodeOutput.many idss)
  | EncodeInput.other => none

/-- Specification predicate: `st'` extends the renderer state `st` by
appending equally many ids and mask values, all mask values 0 or 1. -/
def EmitsOk (st st' : List Nat × List Nat) : Prop :=
  ∃ a b, st'.1 = st.1 ++ a ∧ st'.2 = st.2 ++ b ∧ a.length = b.length ∧
    ∀ v ∈ b, v = 0 ∨ v = 1

/-- A concrete text encoder used to instantiate theorems on closed inputs. -/
def encW : String → List Nat := fun s => [s.length]

/-- A concrete structural-token id assignment used to instantiate
theorems on closed inputs. -/
def spW : Specials :=
  { bos := 10, user_start := 11, user_end := 12, assistant_start := 13,
    assistant_end := 14, python_start := 15, python_end := 16,
    output_start := 17, output_end := 18 }

lemma emitsOk_refl (st : List Nat × List Nat) : EmitsOk st st :=
  ⟨[], [], by simp, by simp, rfl, by simp⟩

lemma emitsOk_trans {s t u : List Nat × List Nat}
    (h1 : EmitsOk s t) (h2 : EmitsOk t u) : EmitsOk s u := by
  obtain ⟨a, b, ha, hb, hl, hm⟩ := h1
  obtain ⟨c, d, hc, hd, hl2, hm2⟩ := h2
  refine ⟨a ++ c, b ++ d, ?_, ?_, ?_, ?_⟩
  · rw [hc, ha, List.append_assoc]
  · rw [hd, hb, List.append_assoc]
  · simp [hl, hl2]
  · intro v hv
    rcases List.mem_append.mp hv with h | h
    · exact hm v h
    · exact hm2 v h

lemma emitsOk_add_tokens (st : List Nat × List Nat) (tids : List Nat) (v : Nat)
    (hv : v = 0 ∨ v = 1) : EmitsOk st (add_tokens st tids v) :=
  ⟨tids, List.replicate tids.length v, rfl, rfl, by simp,
    fun x hx => (List.eq_of_mem_replicate hx) ▸ hv⟩

lemma partTokens_emitsOk {enc : String → List Nat} {sp : Specials} {p : Part}
    {st st' : List Nat × List Nat} (h : partTokens enc sp p st = some st') :
    EmitsOk st st' := by
  unfold partTokens at h
  split_ifs at h <;> injection h with h <;> subst h
  · exact emitsOk_add_tokens _ _ _ (Or.inr rfl)
  · exact emitsOk_trans (emitsOk_trans
      (emitsOk_add_tokens _ _ _ (Or.inr rfl)) (emitsOk_add_tokens _ _ _ (Or.inr rfl)))
      (emitsOk_add_tokens _ _ _ (Or.inr rfl))
  · exact emitsOk_trans (emitsOk_trans
      (emitsOk_add_tokens _ _ _ (Or.inl rfl)) (emitsOk_add_tokens _ _ _ (Or.inl rfl)))
      (emitsOk_add_tokens _ _ _ (Or.inl rfl))

lemma foldParts_emitsOk {enc : String → List Nat} {sp : Specials} :
    ∀ {ps : List Part} {st st' : List Nat × List Nat},
    foldParts enc sp ps st = some st' → EmitsOk st st'
  | [], st, st', h => by
    simp only [foldParts] at h
    injection h with h
    exact h ▸ emitsOk_refl st
  | p :: ps, st, st', h => by
    simp only [foldParts] at h
    rcases Option.bind_eq_some.mp h with ⟨st1, h1, h2⟩
    exact emitsOk_trans (partTokens_emitsOk h1) (foldParts_emitsOk h2)

lemma renderMessages_emitsOk {enc : String → List Nat} {sp : Specials} :
    ∀ {msgs : List Message} {i : Nat} {st st' : List Nat × List Nat},
    renderMessages enc sp i msgs st = some st' → EmitsOk st st'
  | [], _, st, st', h => by
    simp only [renderMessages] at h
    injection h with h
    exact h ▸ emitsOk_refl st
  | ⟨role, c⟩ :: rest, i, st, st', h => by
    simp only [renderMessages] at h
    by_cases h1 : role = (if i % 2 = 0 then "user" else "assistant")
    case neg =>
      rw [if_neg h1] at h
      exact Option.noConfusion h
    case pos =>
      rw [if_pos h1] at h
      by_cases h2 : role = "user"
      case pos =>
        rw [if_pos h2] at h
        cases c with
        | str s =>
          exact emitsOk_trans
            (emitsOk_trans (emitsOk_trans
              (emitsOk_add_tokens _ _ _ (Or.inl rfl)) (emitsOk_add_tokens _ _ _ (Or.inl rfl)))
              (emitsOk_add_tokens _ _ _ (Or.inl rfl)))
            (renderMessages_emitsOk h)
        | parts ps => exact Option.noConfusion h
        | other => exact Option.noConfusion h
      case neg =>
        rw [if_neg h2] at h
        cases c with
        | str s =>
          exact emitsOk_trans
            (emitsOk_trans (emitsOk_trans
              (emitsOk_add_tokens _ _ _ (Or.inl rfl)) (emitsOk_add_tokens _ _ _ (Or.inr rfl)))
              (emitsOk_add_tokens _ _ _ (Or.inr rfl)))
            (renderMessages_emitsOk h)
        | parts ps =>
          rcases Option.bind_eq_some.mp h with ⟨st2, hfold, hrest⟩
          exact emitsOk_trans
            (emitsOk_trans (emitsOk_trans
              (emitsOk_add_tokens _ _ _ (Or.inl rfl)) (foldParts_emitsOk hfold))
              (emitsOk_add_tokens _ _ _ (Or.inr rfl)))
            (renderMessages_emitsOk hrest)
        | other => exact Option.noConfusion h

lemma render_conversation_shape {enc : String → List Nat} {sp : Specials}
    {msgs : List Message} {L : Nat} {pr : List Nat × List Nat}
    (h : render_conversation enc sp msgs L = some pr) :
    ∃ a b, pr.1 = (sp.bos :: a).take L ∧ pr.2 = ((0 : Nat) :: b).take L ∧
      a.length = b.length ∧ ∀ v ∈ b, v = 0 ∨ v = 1 := by
  unfold render_conversation at h
  rcases Option.bind_eq_some.mp h with ⟨msgs', _, h2⟩
  rcases Option.map_eq_some'.mp h2 with ⟨st, h3, h4⟩
  obtain ⟨a, b, ha, hb, hl, hm⟩ := renderMessages_emitsOk h3
  refine ⟨a, b, ?_, ?_, hl, hm⟩
  · rw [← h4]
    simp [ha, add_tokens]
  · rw [← h4]
    simp [hb, add_tokens]

/-- C1: for every conversation accepted by `render_conversation` and every
maximum-length bound `L`, the returned pair satisfies
`ids.length = mask.length ≤ L`, every mask value is exactly 0 or 1, and
whenever `1 ≤ L` position 0 of `ids` is the sequence-boundary (BOS) token
with mask value 0. -/
theorem C1_render_conversation_invariants
    (enc : String → List Nat) (sp : Specials) (msgs : List Message) (L : Nat)
    (ids mask : List Nat)
    (h : render_conversation enc sp msgs L = some (ids, mask)) :
    ids.length = mask.length ∧ ids.length ≤ L ∧
      (∀ v ∈ mask, v = 0 ∨ v = 1) ∧
      (1 ≤ L → ids.head? = some sp.bos ∧ mask.head? = some 0) := by
  obtain ⟨a, b, ha, hb, hl, hm⟩ := render_conversation_shape h
  have ha' : ids = (sp.bos :: a).take L := ha
  have hb' : mask = ((0 : Nat) :: b).take L := hb
  subst ha' hb'
  refine ⟨?_, ?_, ?_, ?_⟩
  · simp [List.length_take, hl]
  · simp [List.length_take]
  · intro v hv
    rcases List.mem_cons.mp (List.take_subset _ _ hv) with h0 | hb2
    · exact Or.inl h0
    · exact hm v hb2
  · intro hL
    cases L with
    | zero => omega
    | succ n => simp [List.take_succ_cons]

/-- Witness for C1 at a concrete accepted conversation. -/
theorem C1_witness :
    ([10, 11, 2, 12] : List Nat).length = ([0, 0, 0, 0] : List Nat).length ∧
      ([10, 11, 2, 12] : List Nat).length ≤ 8 ∧
      (∀ v ∈ ([0, 0, 0, 0] : List Nat), v = 0 ∨ v = 1) ∧
      (1 ≤ 8 → ([10, 11, 2, 12] : List Nat).head? = some spW.bos ∧
        ([0, 0, 0, 0] : List Nat).head? = some 0) :=
  C1_render_conversation_invariants encW spW [⟨"user", Content.str "hi"⟩] 8
    [10, 11, 2, 12] [0, 0, 0, 0] (by rfl)

/-- C3: rendering a conversation whose first message has role system and
whose second has role user gives exactly the same (ids, mask) pair as
rendering the conversation with the system message dropped and the user
content replaced by the system content, `"\n\n"` and the user content
concatenated. -/
theorem C3_system_message_merge (enc : String → List Nat) (sp : Specials)
    (S U : String) (rest : List Message) (L : Nat) :
    render_conversation enc sp
        (⟨"system", Content.str S⟩ :: ⟨"user", Content.str U⟩ :: rest) L =
      render_conversation enc sp
        (⟨"user", Content.str (S ++ "\n\n" ++ U)⟩ :: rest) L := rfl

/-- C7: the special-token id assignment built at tokenizer construction
maps the reserved names injectively: for every `tokens_offset`, both the
name column and the id column of `special_tokens tokens_offset` are
duplicate-free, so no two reserved names resolve to the same id. -/
theorem C7_special_tokens_no_id_collision (tokens_offset : Nat) :
    ((special_tokens tokens_offset).map Prod.fst).Nodup ∧
      ((special_tokens tokens_offset).map Prod.snd).Nodup := by
  constructor
  · simp [special_tokens, SPECIAL_TOKENS, List.enum, List.enumFrom]
  · simp [special_tokens, SPECIAL_TOKENS, List.enum, List.enumFrom]

/-- C8: the `encode` façade encodes a single string through the ordinary
path with the resolved prepend id at position 0 and the resolved append id
at the end; a list of strings is encoded element-wise in order with the
same prepend/append applied to each row; any other input shape is fatal. -/
theorem C8_encode_facade (encText : String → List Nat) (encSpecial : String → Nat)
    (prepend app : Option TokArg) :
    (∀ s, encode encText encSpecial (EncodeInput.str s) prepend app =
        some (EncodeOutput.one
          ((prepend.map (resolveArg encSpecial)).toList ++ encText s ++
            (app.map (resolveArg encSpecial)).toList))) ∧
    (∀ ss, encode encText encSpecial (EncodeInput.list ss) prepend app =
        some (EncodeOutput.many (ss.map (fun s =>
          (prepend.map (resolveArg encSpecial)).toList ++ encText s ++
            (app.map (resolveArg encSpecial)).toList)))) ∧
    encode encText encSpecial EncodeInput.other prepend app = none := by
  refine ⟨fun s => ?_, fun ss => ?_, rfl⟩ <;>
    cases prepend <;> cases app <;>
    simp [encode, List.map_map, Function.comp]

/-- C4: rendering with a smaller bound returns exactly the elementwise
truncation of what rendering with any larger bound returns, for both ids
and mask: truncation is applied only after full emission. -/
theorem C4_truncation_is_take
    (enc : String → List Nat) (sp : Specials) (msgs : List Message)
    (L1 L2 : Nat) (ids mask : List Nat) (hL : L1 ≤ L2)
    (h : render_conversation enc sp msgs L2 = some (ids, mask)) :
    render_conversation enc sp msgs L1 = some (ids.take L1, mask.take L1) := by
  unfold render_conversation at h ⊢
  rcases Option.bind_eq_some.mp h with ⟨msgs', h1, h2⟩
  rcases Option.map_eq_some'.mp h2 with ⟨st, h3, h4⟩
  injection h4 with hids hmask
  rw [h1, Option.some_bind, h3, Option.map_some']
  rw [← hids, ← hmask, List.take_take, List.take_take, Nat.min_eq_left hL]

/-- Witness for C4 at a concrete conversation and bounds 2 ≤ 8. -/
theorem C4_witness :
    Jujuchat.render_conversation encW spW [⟨"user", Content.str "hi"⟩] 2 =
      some (([10, 11, 2, 12] : List Nat).take 2, ([0, 0, 0, 0] : List Nat).take 2) :=
  C4_truncation_is_take encW spW [⟨"user", Content.str "hi"⟩] 2 8
    [10, 11, 2, 12] [0, 0, 0, 0] (by decide) (by rfl)

/-- C5: the completion renderer on a conversation ending in an assistant
message equals the conversation renderer on the conversation without that
message (mask discarded, default bound 2048) with the assistant-turn-start
id appended; it fails if the last message is not an assistant one or if
removing it leaves an empty conversation. -/
theorem C5_render_for_completion_spec
    (enc : String → List Nat) (sp : Specials) (init : List Message) (last : Message) :
    (last.role = "assistant" →
      render_for_completion enc sp (init ++ [last]) =
        (render_conversation enc sp init 2048).map
          (fun st => st.1 ++ [sp.assistant_start])) ∧
    (last.role ≠ "assistant" → render_for_completion enc sp (init ++ [last]) = none) ∧
    render_for_completion enc sp [] = none ∧
    (last.role = "assistant" → render_for_completion enc sp [last] = none) := by
  have hlast : (init ++ [last]).getLast? = some last := List.getLast?_concat _
  have hdrop : (init ++ [last]).dropLast = init := List.dropLast_concat
  refine ⟨fun hr => ?_, fun hr => ?_, rfl, fun hr => ?_⟩
  · unfold render_for_completion
    rw [hlast]
    simp only [if_pos hr, hdrop]
  · unfold render_for_completion
    rw [hlast]
    simp only [if_neg hr]
  · unfold render_for_completion
    have h1 : ([last] : List Message).getLast? = some last := rfl
    rw [h1]
    simp only [if_pos hr]
    rfl

/-- Witness for C5 at a concrete conversation ending in an assistant turn. -/
theorem C5_witness :
    Jujuchat.render_for_completion encW spW
        ([⟨"user", Content.str "hi"⟩] ++ [⟨"assistant", Content.str "ok"⟩]) =
      (Jujuchat.render_conversation encW spW [⟨"user", Content.str "hi"⟩] 2048).map
        (fun st => st.1 ++ [spW.assistant_start]) :=
  (C5_render_for_completion_spec encW spW [⟨"user", Content.str "hi"⟩]
    ⟨"assistant", Content.str "ok"⟩).1 rfl

/-- C9: every accepted input to the completion renderer yields at most
2049 ids (the conversation renderer is invoked at its default bound 2048
and one id is appended after), and the last id is always the
assistant-turn-start token. -/
theorem C9_completion_bounded_ends_with_start
    (enc : String → List Nat) (sp : Specials) (msgs : List Message) (ids : List Nat)
    (h : render_for_completion enc sp msgs = some ids) :
    ids.length ≤ 2049 ∧ ids.getLast? = some sp.assistant_start := by
  unfold render_for_completion at h
  split at h
  · exact Option.noConfusion h
  · split_ifs at h with hr
    · rcases Option.map_eq_some'.mp h with ⟨st, h1, h2⟩
      obtain ⟨a, b, ha, hb, _, _⟩ := render_conversation_shape h1
      subst h2
      constructor
      · rw [List.length_append, ha, List.length_take]
        simp
      · exact List.getLast?_concat _

/-- Witness for C9 at a concrete accepted conversation. -/
theorem C9_witness :
    ([10, 11, 2, 12, 13] : List Nat).length ≤ 2049 ∧
      ([10, 11, 2, 12, 13] : List Nat).getLast? = some spW.assistant_start :=
  C9_completion_bounded_ends_with_start encW spW
    [⟨"user", Content.str "hi"⟩, ⟨"assistant", Content.str "ok"⟩]
    [10, 11, 2, 12, 13] (by rfl)

lemma replicate_snoc {α : Type} (n : Nat) (a : α) :
    List.replicate n a ++ [a] = a :: List.replicate n a := by
  rw [← List.replicate_succ', List.replicate_succ]

lemma partTokens_bad {enc : String → List Nat} {sp : Specials} {p : Part}
    {st : List Nat × List Nat} (h1 : p.type ≠ "text") (h2 : p.type ≠ "python")
    (h3 : p.type ≠ "python_output") : partTokens enc sp p st = none := by
  unfold partTokens
  rw [if_neg h1, if_neg h2, if_neg h3]

lemma foldParts_bad {enc : String → List Nat} {sp : Specials} {p : Part}
    (h1 : p.type ≠ "text") (h2 : p.type ≠ "python") (h3 : p.type ≠ "python_output") :
    ∀ {ps : List Part}, p ∈ ps → ∀ st, foldParts enc sp ps st = none
  | [], hp, _ => absurd hp (List.not_mem_nil p)
  | q :: ps, hp, st => by
    rcases List.mem_cons.mp hp with rfl | hp'
    · simp only [foldParts, partTokens_bad h1 h2 h3, Option.none_bind]
    · cases hq : partTokens enc sp q st with
      | none => simp [foldParts, hq]
      | some st1 => simp [foldParts, hq, foldParts_bad h1 h2 h3 hp']

/-- C2: per-segment mask values of the renderer: every position emitted
for a user message (start boundary, text ids, end boundary) has mask 0;
every position of an assistant tool-call (python) part, boundaries
included, has mask 1; every position of a tool-output part, boundaries
included, has mask 0; and the last position emitted for any accepted
assistant message is the assistant-turn-end token with mask 1. -/
theorem C2_mask_values (enc : String → List Nat) (sp : Specials) :
    (∀ (i : Nat) (s : String) (st : List Nat × List Nat), i % 2 = 0 →
      renderMessages enc sp i [⟨"user", Content.str s⟩] st =
        some (st.1 ++ sp.user_start :: (enc s ++ [sp.user_end]),
          st.2 ++ List.replicate ((enc s).length + 2) 0)) ∧
    (∀ (s : String) (st : List Nat × List Nat),
      partTokens enc sp ⟨"python", s⟩ st =
        some (st.1 ++ sp.python_start :: (enc s ++ [sp.python_end]),
          st.2 ++ List.replicate ((enc s).length + 2) 1)) ∧
    (∀ (s : String) (st : List Nat × List Nat),
      partTokens enc sp ⟨"python_output", s⟩ st =
        some (st.1 ++ sp.output_start :: (enc s ++ [sp.output_end]),
          st.2 ++ List.replicate ((enc s).length + 2) 0)) ∧
    (∀ (i : Nat) (c : Content) (st st' : List Nat × List Nat), i % 2 = 1 →
      renderMessages enc sp i [⟨"assistant", c⟩] st = some st' →
      st'.1.getLast? = some sp.assistant_end ∧ st'.2.getLast? = some 1) := by
  refine ⟨?_, ?_, ?_, ?_⟩
  · intro i s st hi
    simp [renderMessages, add_tokens, hi, List.replicate_succ, replicate_snoc]
  · intro s st
    simp [partTokens, add_tokens, List.replicate_succ, replicate_snoc]
  · intro s st
    simp [partTokens, add_tokens, List.replicate_succ, replicate_snoc]
  · intro i c st st' hi h
    simp only [renderMessages, hi] at h
    norm_num at h
    cases c with
    | str s =>
      simp only [renderMessages] at h
      injection h with h
      subst h
      constructor
      · exact List.getLast?_concat _
      · exact List.getLast?_concat _
    | parts ps =>
      rcases Option.bind_eq_some.mp h with ⟨st2, hfold, hrest⟩
      injection hrest with hrest
      subst hrest
      constructor
      · exact List.getLast?_concat _
      · exact List.getLast?_concat _
    | other => exact Option.noConfusion h

/-- Witness for C2 at concrete segments. -/
theorem C2_witness :
    Jujuchat.renderMessages encW spW 0 [⟨"user", Content.str "hi"⟩] ([], []) =
        some (([] : List Nat) ++ spW.user_start :: (encW "hi" ++ [spW.user_end]),
          ([] : List Nat) ++ List.replicate ((encW "hi").length + 2) 0) ∧
    Jujuchat.partTokens encW spW ⟨"python", "x"⟩ ([], []) =
        some (([] : List Nat) ++ spW.python_start :: (encW "x" ++ [spW.python_end]),
          ([] : List Nat) ++ List.replicate ((encW "x").length + 2) 1) ∧
    Jujuchat.partTokens encW spW ⟨"python_output", "y"⟩ ([], []) =
        some (([] : List Nat) ++ spW.output_start :: (encW "y" ++ [spW.output_end]),
          ([] : List Nat) ++ List.replicate ((encW "y").length + 2) 0) ∧
    (([13, 2, 14] : List Nat).getLast? = some spW.assistant_end ∧
      ([0, 1, 1] : List Nat).getLast? = some 1) :=
  ⟨(C2_mask_values encW spW).1 0 "hi" ([], []) rfl,
   (C2_mask_values encW spW).2.1 "x" ([], []),
   (C2_mask_values encW spW).2.2.1 "y" ([], []),
   (C2_mask_values encW spW).2.2.2 1 (Content.str "ok") ([], [])
     ([13, 2, 14], [0, 1, 1]) rfl (by rfl)⟩

/-- C6: every malformed conversation is rejected with no output: empty
message list, a conversation starting with role assistant, a leading
system message not followed by a user message, non-string user content,
an unrecognized assistant content type, and an assistant part list
containing an unrecognized part kind. -/
theorem C6_malformed_rejected (enc : String → List Nat) (sp : Specials) (L : Nat) :
    render_conversation enc sp [] L = none ∧
    (∀ c rest, render_conversation enc sp (⟨"assistant", c⟩ :: rest) L = none) ∧
    (∀ c, render_conversation enc sp [⟨"system", c⟩] L = none) ∧
    (∀ c (m : Message) rest, m.role ≠ "user" →
      render_conversation enc sp (⟨"system", c⟩ :: m :: rest) L = none) ∧
    (∀ c rest, (∀ s, c ≠ Content.str s) →
      render_conversation enc sp (⟨"user", c⟩ :: rest) L = none) ∧
    (∀ u rest, render_conversation enc sp
        (⟨"user", Content.str u⟩ :: ⟨"assistant", Content.other⟩ :: rest) L = none) ∧
    (∀ u ps (p : Part) rest, p ∈ ps → p.type ≠ "text" → p.type ≠ "python" →
      p.type ≠ "python_output" →
      render_conversation enc sp
        (⟨"user", Content.str u⟩ :: ⟨"assistant", Content.parts ps⟩ :: rest) L =
          none) := by
  refine ⟨rfl, fun c rest => rfl, fun c => rfl, ?_, ?_, fun u rest => rfl, ?_⟩
  · intro c m rest hm
    simp [render_conversation, mergeSystem, hm]
  · intro c rest hc
    cases c with
    | str s => exact absurd rfl (hc s)
    | parts ps => rfl
    | other => rfl
  · intro u ps p rest hp h1 h2 h3
    simp [render_conversation, mergeSystem, renderMessages,
      foldParts_bad h1 h2 h3 hp]

/-- Witness for C6 at concrete malformed conversations. -/
theorem C6_witness :
    Jujuchat.render_conversation encW spW [] 5 = none ∧
    Jujuchat.render_conversation encW spW [⟨"assistant", Content.str "a"⟩] 5 = none ∧
    Jujuchat.render_conversation encW spW [⟨"system", Content.str "s"⟩] 5 = none ∧
    Jujuchat.render_conversation encW spW
      [⟨"system", Content.str "s"⟩, ⟨"assistant", Content.str "a"⟩] 5 = none ∧
    Jujuchat.render_conversation encW spW [⟨"user", Content.other⟩] 5 = none ∧
    Jujuchat.render_conversation encW spW
      [⟨"user", Content.str "u"⟩, ⟨"assistant", Content.other⟩] 5 = none ∧
    Jujuchat.render_conversation encW spW
      [⟨"user", Content.str "u"⟩,
       ⟨"assistant", Content.parts [⟨"tool", "z"⟩]⟩] 5 = none :=
  ⟨(C6_malformed_rejected encW spW 5).1,
   (C6_malformed_rejected encW spW 5).2.1 (Content.str "a") [],
   (C6_malformed_rejected encW spW 5).2.2.1 (Content.str "s"),
   (C6_malformed_rejected encW spW 5).2.2.2.1 (Content.str "s")
     ⟨"assistant", Content.str "a"⟩ [] (by decide),
   (C6_malformed_rejected encW spW 5).2.2.2.2.1 Content.other []
     (fun s h => Content.noConfusion h),
   (C6_malformed_rejected encW spW 5).2.2.2.2.2.1 "u" [],
   (C6_malformed_rejected encW spW 5).2.2.2.2.2.2 "u" [⟨"tool", "z"⟩]
     ⟨"tool", "z"⟩ [] (by decide) (by decide) (by decide) (by decide)⟩

/-- C10: the role-alternation check only forces the role at each index
(user at even, assistant at odd) and never requires an assistant ending:
a single user message renders successfully with an all-zero mask, and a
user/assistant/user conversation is accepted as well. -/
theorem C10_alternation_only (enc : String → List Nat) (sp : Specials) :
    (∀ (i : Nat) (m : Message) rest st,
      m.role ≠ (if i % 2 = 0 then "user" else "assistant") →
      renderMessages enc sp i (m :: rest) st = none) ∧
    (∀ (s : String) (L : Nat),
      render_conversation enc sp [⟨"user", Content.str s⟩] L =
        some ((sp.bos :: sp.user_start :: (enc s ++ [sp.user_end])).take L,
          (List.replicate ((enc s).length + 3) 0).take L)) ∧
    (∀ (s1 s2 s3 : String) (L : Nat),
      (render_conversation enc sp
        [⟨"user", Content.str s1⟩, ⟨"assistant", Content.str s2⟩,
         ⟨"user", Content.str s3⟩] L).isSome = true) := by
  refine ⟨?_, ?_, ?_⟩
  · intro i m rest st hm
    simp only [renderMessages]
    rw [if_neg hm]
  · intro s L
    simp [render_conversation, mergeSystem, renderMessages, add_tokens,
      List.replicate_succ, replicate_snoc]
  · intro s1 s2 s3 L
    simp [render_conversation, mergeSystem, renderMessages, add_tokens]

/-- Witness for C10 at concrete conversations. -/
theorem C10_witness :
    Jujuchat.renderMessages encW spW 0 [⟨"assistant", Content.str "a"⟩] ([], []) =
        none ∧
    Jujuchat.render_conversation encW spW [⟨"user", Content.str "hi"⟩] 8 =
      some ((spW.bos :: spW.user_start :: (encW "hi" ++ [spW.user_end])).take 8,
        (List.replicate ((encW "hi").length + 3) 0).take 8) ∧
    (Jujuchat.render_conversation encW spW
      [⟨"user", Content.str "a"⟩, ⟨"assistant", Content.str "b"⟩,
       ⟨"user", Content.str "c"⟩] 99).isSome = true :=
  ⟨(C10_alternation_only encW spW).1 0 ⟨"assistant", Content.str "a"⟩ [] ([], [])
     (by decide),
   (C10_alternation_only encW spW).2.1 "hi" 8,
   (C10_alternation_only encW spW).2.2 "a" "b" "c" 99⟩

end Jujuchat
